import Mathlib

/-!
Shallow embedding of the go-im message pipeline, gateway handlers, receipt
store and presence store, with theorems checking the specification's claims
against the embedded code.

Source files embedded (Go):
- internal/models: `Message`, `ConversationType`, stream status constants
- internal/store/userstore.go: `MessageStore` (Append / Recall / RecallBySeq /
  GetBySeq / List / DeleteConversation)
- internal/store/sqlstore.go: `ReceiptStore.UpsertReadSeq`,
  `ReceiptStore.MarkAllReadTx`, `ConversationStore.UpsertConversation`
- internal/services/message_service.go: `MessageService.Send`, `StartStream`,
  `SendStreamChunk`, `EndStream`
- internal/ws (gateway): `handleInbound` cases "send", "read", "recall"
- internal/cache presence: `SetDeviceOnline`, `SetDeviceOffline`
- internal/domain/entities: `Message.CanRecall`

Modelling conventions: machine `int64` values (seq, timestamps in
nanoseconds) are Lean `Int` (no overflow is relevant to the claims); the
wall clock (`time.Now()`), generated UUIDs, and fallible store calls are
explicit parameters, so every operation is a pure function from state and
inputs to state and result; the opaque JSON payloads are `String`s.
-/

namespace GoIm

/-- `models.ConversationType`: "c2c" or "group". -/
inductive ConvType
  | c2c
  | group
deriving DecidableEq, Repr

/-- `services.ToConvType`: "group" maps to group, anything else to c2c. -/
def toConvType (s : String) : ConvType :=
  if s == "group" then ConvType.group else ConvType.c2c

/-- `models.Message` (message log record). `seq`/`timestamp` are int64
nanosecond values, `expireAt` is the optional self-destruct time. -/
structure Message where
  serverMsgId : String
  clientMsgId : String
  convId : String
  convType : ConvType
  fromUserId : String
  toUserId : String
  groupId : String
  seq : Int
  timestamp : Int
  mtype : String
  payload : String
  recalled : Bool
  streamId : String
  streamSeq : Int
  streamStatus : String
  isStreaming : Bool
  expireAt : Option Int
  burnAfterRead : Bool
deriving DecidableEq, Repr

/-- Key match for the unique index `(conv_id, client_msg_id)`. -/
def keyMatch (convId clientMsgId : String) (m : Message) : Bool :=
  m.convId == convId && m.clientMsgId == clientMsgId

/-- `MessageStore.Append`: `INSERT IGNORE` keyed by the unique index
`(conv_id, client_msg_id)` — insert-if-absent, no-op on duplicate key. -/
def appendMsg (log : List Message) (m : Message) : List Message :=
  if log.any (keyMatch m.convId m.clientMsgId) then log else log ++ [m]

/-- `MessageStore.Recall`: `UPDATE messages SET recalled=1 WHERE conv_id=?
AND server_msg_id=?`. -/
def recallMsg (log : List Message) (convId serverMsgId : String) : List Message :=
  log.map fun m =>
    if m.convId == convId && m.serverMsgId == serverMsgId then
      { m with recalled := true } else m

/-- `MessageStore.RecallBySeq`: `UPDATE messages SET recalled=1 WHERE
conv_id=? AND seq=? AND burn_after_read=1`. -/
def recallBySeq (log : List Message) (convId : String) (seq : Int) : List Message :=
  log.map fun m =>
    if m.convId == convId && m.seq == seq && m.burnAfterRead then
      { m with recalled := true } else m

/-- `MessageStore.GetBySeq`: single-row query `WHERE conv_id=? AND seq=?`. -/
def getBySeq (log : List Message) (convId : String) (seq : Int) : Option Message :=
  log.find? fun m => m.convId == convId && m.seq == seq

/-- The `WHERE` clause of `MessageStore.List`: `conv_id=? AND seq>? AND
recalled=0 AND (expire_at IS NULL OR expire_at>NOW())`. -/
def histPred (now : Int) (convId : String) (fromSeq : Int) (m : Message) : Bool :=
  m.convId == convId && decide (fromSeq < m.seq) && !m.recalled &&
    (match m.expireAt with
     | none => true
     | some t => decide (now < t))

/-- Comparison used for `ORDER BY seq ASC`. -/
def seqLe (a b : Message) : Prop := a.seq ≤ b.seq

instance : DecidableRel seqLe := fun a b => Int.decLe a.seq b.seq

instance : IsTotal Message seqLe := ⟨fun a b => Int.le_total a.seq b.seq⟩

instance : IsTrans Message seqLe := ⟨fun _ _ _ h1 h2 => Int.le_trans h1 h2⟩

/-- The `LIMIT` normalisation in `MessageStore.List`:
`if limit <= 0 || limit > 200 { limit = 50 }`. -/
def normLimit (limit : Int) : Nat :=
  if limit ≤ 0 || 200 < limit then 50 else limit.toNat

/-- `MessageStore.List`: filter by the history predicate, order by `seq`
ascending, cap at the normalised limit. -/
def listMsgs (log : List Message) (now : Int) (convId : String) (fromSeq : Int)
    (limit : Int) : List Message :=
  (((log.filter (histPred now convId fromSeq)).insertionSort seqLe).take (normLimit limit))

/-- `services.SendRequest` (payload assembled by the WS/HTTP layer). -/
structure SendRequest where
  convId : String
  convType : ConvType
  clientId : String
  fromUser : String
  toUser : String
  groupId : String
  mtype : String
  payload : String
  streamId : String
  streamSeq : Int
  streamStatus : String
  isStreaming : Bool
  expireAt : Option Int
  burnAfterRead : Bool
deriving DecidableEq, Repr

/-- `services.Deliver`: the ack / delivery envelope built from the stored
message (`Timestamp` is the same clock reading, unit conversion elided). -/
structure Deliver where
  serverMsgId : String
  clientMsgId : String
  convId : String
  convType : ConvType
  fromUser : String
  toUser : String
  groupId : String
  seq : Int
  timestamp : Int
  mtype : String
  payload : String
  streamId : String
  streamSeq : Int
  streamStatus : String
  isStreaming : Bool
  expireAt : Option Int
  burnAfterRead : Bool
deriving DecidableEq, Repr

/-- A frame published on a delivery channel (`cache.Client().Publish`). -/
inductive Frame
  | deliver (d : Deliver)
  | recalledEvt (convId : String) (seq : Int)
deriving DecidableEq, Repr

/-- Transient stream state cached under `im:stream:<id>`
(`convId, convType, from, to, groupId, seq`). -/
structure StreamInfo where
  convId : String
  convType : ConvType
  fromUser : String
  toUser : String
  groupId : String
  seq : Int
deriving DecidableEq, Repr

/-- External collaborators of the pipeline, with their results made
explicit: friend / membership / mute lookups and store-failure injection
for the fallible `Append` call. -/
structure Env where
  isFriend : String → String → Bool
  isMember : String → String → Bool
  isMuted : String → String → Bool
  rateAllowed : Bool
  appendFails : Bool

/-- The persistent and transient state the embedded operations touch:
message log, `conversations.last_seq`, `user_conversations` keys,
`read_receipts`, `conv_deletes` watermarks, stream cache, published
frames. -/
structure ServerState where
  log : List Message
  convLastSeq : List (String × Int)
  userConvs : List (String × String)
  readSeqs : List ((String × String) × Int)
  convDeletes : List ((String × String) × Int)
  streams : List (String × StreamInfo)
  published : List (String × Frame)
deriving Repr

/-- The empty initial state. -/
def initState : ServerState :=
  { log := [], convLastSeq := [], userConvs := [], readSeqs := [],
    convDeletes := [], streams := [], published := [] }

/-- `ConversationStore.UpsertConversation`: `ON DUPLICATE KEY UPDATE
last_seq=IF(VALUES(last_seq)>last_seq, VALUES(last_seq), last_seq)` —
insert, or keep the larger `last_seq`. -/
def upsertConversation (t : List (String × Int)) (convId : String) (lastSeq : Int) :
    List (String × Int) :=
  match t with
  | [] => [(convId, lastSeq)]
  | (k, v) :: rest =>
    if k = convId then (k, if v < lastSeq then lastSeq else v) :: rest
    else (k, v) :: upsertConversation rest convId lastSeq

/-- `ConversationStore.UpsertUserConversation`: insert the `(user, conv)`
relation if absent (the duplicate-key branch only bumps `updated_at`). -/
def upsertUserConversation (t : List (String × String)) (userId convId : String) :
    List (String × String) :=
  if t.contains (userId, convId) then t else t ++ [(userId, convId)]

/-- `MessageStore.DeleteConversation`: upsert the delete watermark
`conv_deletes(owner_id, conv_id, deleted_at)`. -/
def deleteConversation (t : List ((String × String) × Int)) (ownerId convId : String)
    (now : Int) : List ((String × String) × Int) :=
  match t with
  | [] => [((ownerId, convId), now)]
  | (k, v) :: rest =>
    if k = (ownerId, convId) then (k, now) :: rest
    else (k, v) :: deleteConversation rest ownerId convId now

/-- The streaming persistence guard in `MessageService.Send`:
`!req.IsStreaming || StreamStatus == start || end || error`. -/
def shouldStore (req : SendRequest) : Bool :=
  !req.isStreaming || req.streamStatus == "start" || req.streamStatus == "end" ||
    req.streamStatus == "error"

/-- The conversation-index guard in `MessageService.Send`:
`!req.IsStreaming || StreamStatus == start`. -/
def shouldIndex (req : SendRequest) : Bool :=
  !req.isStreaming || req.streamStatus == "start"

/-- The `models.Message` built at the top of `MessageService.Send`:
fresh `serverMsgId`, `Seq: time.Now().UnixNano()`, `Timestamp: time.Now()`. -/
def buildMsg (req : SendRequest) (now : Int) (serverId : String) : Message :=
  { serverMsgId := serverId, clientMsgId := req.clientId, convId := req.convId,
    convType := req.convType, fromUserId := req.fromUser, toUserId := req.toUser,
    groupId := req.groupId, seq := now, timestamp := now, mtype := req.mtype,
    payload := req.payload, recalled := false, streamId := req.streamId,
    streamSeq := req.streamSeq, streamStatus := req.streamStatus,
    isStreaming := req.isStreaming, expireAt := req.expireAt,
    burnAfterRead := req.burnAfterRead }

/-- The `services.Deliver` built from the stored message in `Send`. -/
def deliverOf (m : Message) : Deliver :=
  { serverMsgId := m.serverMsgId, clientMsgId := m.clientMsgId, convId := m.convId,
    convType := m.convType, fromUser := m.fromUserId, toUser := m.toUserId,
    groupId := m.groupId, seq := m.seq, timestamp := m.timestamp, mtype := m.mtype,
    payload := m.payload, streamId := m.streamId, streamSeq := m.streamSeq,
    streamStatus := m.streamStatus, isStreaming := m.isStreaming,
    expireAt := m.expireAt, burnAfterRead := m.burnAfterRead }

/-- The conversation-index block of `MessageService.Send` (executed when
`shouldIndex`): upsert `conversations`, the sender's `user_conversations`
row, and for c2c the recipient's row. The asynchronous group-member
fan-out (MQ or batched upserts) is outside the synchronous state change
and not part of any claim's statement. -/
def updateConvIndex (st : ServerState) (req : SendRequest) (m : Message) : ServerState :=
  let t1 := upsertConversation st.convLastSeq req.convId m.seq
  let u1 := upsertUserConversation st.userConvs req.fromUser req.convId
  let u2 :=
    if req.convType = ConvType.c2c ∧ req.toUser ≠ "" then
      upsertUserConversation u1 req.toUser req.convId
    else u1
  { st with convLastSeq := t1, userConvs := u2 }

/-- The delivery block of `MessageService.Send`: c2c publishes to the
recipient's and the sender's channels, group publishes to the group
channel. -/
def publishSend (st : ServerState) (req : SendRequest) (d : Deliver) : ServerState :=
  if req.convType = ConvType.c2c then
    { st with published := st.published ++ [(req.toUser, Frame.deliver d), (req.fromUser, Frame.deliver d)] }
  else
    { st with published := st.published ++ [(req.groupId, Frame.deliver d)] }

/-- `MessageService.Send`, in source order: build the message with a fresh
server id and a clock-derived `seq`; append when `shouldStore` (failing
when the store fails); update the conversation index when `shouldIndex`;
then the group mute check (returning the mute error *after* the append
and index update); finally build the `Deliver`, publish it and return it. -/
def send (env : Env) (st : ServerState) (req : SendRequest) (now : Int)
    (serverId : String) : ServerState × Except String Deliver :=
  let msg := buildMsg req now serverId
  if shouldStore req ∧ env.appendFails then (st, Except.error "append failed")
  else
    let st1 := if shouldStore req then { st with log := appendMsg st.log msg } else st
    let st2 := if shouldIndex req then updateConvIndex st1 req msg else st1
    if req.convType = ConvType.group ∧ env.isMuted req.groupId req.fromUser then
      (st2, Except.error "group is muted or user muted")
    else
      let d := deliverOf msg
      (publishSend st2 req d, Except.ok d)

/-- `ReceiptStore.UpsertReadSeq`: `INSERT ... ON DUPLICATE KEY UPDATE
seq=IF(VALUES(seq) > seq, VALUES(seq), seq)` — insert, or keep the larger
stored seq (monotonic max). -/
def upsertReadSeq (t : List ((String × String) × Int)) (userId convId : String)
    (seq : Int) : List ((String × String) × Int) :=
  match t with
  | [] => [((userId, convId), seq)]
  | (k, v) :: rest =>
    if k = (userId, convId) then (k, if v < seq then seq else v) :: rest
    else (k, v) :: upsertReadSeq rest userId convId seq

/-- The per-conversation write inside `ReceiptStore.MarkAllReadTx`:
`INSERT ... ON DUPLICATE KEY UPDATE seq=VALUES(seq)` — an unconditional
overwrite. -/
def overwriteReadSeq (t : List ((String × String) × Int)) (userId convId : String)
    (seq : Int) : List ((String × String) × Int) :=
  match t with
  | [] => [((userId, convId), seq)]
  | (k, v) :: rest =>
    if k = (userId, convId) then (k, seq) :: rest
    else (k, v) :: overwriteReadSeq rest userId convId seq

/-- `ReceiptStore.GetReadSeq`: row value, 0 when no row. -/
def getReadSeq (t : List ((String × String) × Int)) (userId convId : String) : Int :=
  match t with
  | [] => 0
  | (k, v) :: rest => if k = (userId, convId) then v else getReadSeq rest userId convId

/-- `ReceiptStore.MarkAllReadTx` (one chunk, DB writes): for each conv id,
skip when `lastSeqs[cid] <= 0`, otherwise overwrite the receipt with
`seq=VALUES(seq)`. -/
def markAllReadTx (t : List ((String × String) × Int)) (userId : String)
    (convIds : List String) (lastSeqs : String → Int) : List ((String × String) × Int) :=
  convIds.foldl
    (fun acc cid =>
      if lastSeqs cid ≤ 0 then acc else overwriteReadSeq acc userId cid (lastSeqs cid))
    t

/-- `entities.Message.CanRecall`: `!recalled && now.Sub(timestamp) <=
5*time.Minute` (nanoseconds). -/
def canRecall (recalled : Bool) (timestamp now : Int) : Bool :=
  if recalled then false else decide (now - timestamp ≤ 300000000000)

/-- `cache` presence state: the global online set `im:presence:online` and
the per-user device sets `im:presence:devices:<userId>`. -/
structure Presence where
  online : List String
  devices : List (String × List String)
deriving Repr

/-- The empty presence state. -/
def initPresence : Presence := { online := [], devices := [] }

/-- Redis `SADD` on a modelled set: insert if absent. -/
def sAdd (l : List String) (x : String) : List String :=
  if l.contains x then l else l ++ [x]

/-- Redis `SREM` on a modelled set: remove the member. -/
def sRem (l : List String) (x : String) : List String :=
  l.filter fun y => !(y == x)

/-- The device set of a user (`SMEMBERS`, empty when the key is absent). -/
def devicesOf (p : Presence) (userId : String) : List String :=
  match p.devices.lookup userId with
  | none => []
  | some l => l

/-- Update one user's device set in the association list. -/
def setDevices (t : List (String × List String)) (userId : String)
    (l : List String) : List (String × List String) :=
  match t with
  | [] => [(userId, l)]
  | (k, v) :: rest =>
    if k = userId then (k, l) :: rest else (k, v) :: setDevices rest userId l

/-- `cache.SetDeviceOnline`: `SADD devices(user) device; SADD online user`
(one transaction). -/
def setDeviceOnline (p : Presence) (userId deviceId : String) : Presence :=
  { devices := setDevices p.devices userId (sAdd (devicesOf p userId) deviceId),
    online := sAdd p.online userId }

/-- `cache.SetDeviceOffline`: `SREM devices(user) device`; then if
`SCARD devices(user) = 0`, `SREM online user`. -/
def setDeviceOffline (p : Presence) (userId deviceId : String) : Presence :=
  let devs := sRem (devicesOf p userId) deviceId
  { devices := setDevices p.devices userId devs,
    online := if devs.isEmpty then sRem p.online userId else p.online }

/-- A presence transition: a connect or a disconnect of one device. -/
inductive PresOp
  | conn (userId deviceId : String)
  | disc (userId deviceId : String)

/-- One presence transition applied to the state. -/
def applyPresOp (p : Presence) (op : PresOp) : Presence :=
  match op with
  | PresOp.conn u d => setDeviceOnline p u d
  | PresOp.disc u d => setDeviceOffline p u d

/-- A sequential run of presence transitions from the empty state. -/
def runPres (ops : List PresOp) : Presence :=
  ops.foldl applyPresOp initPresence

/-- The result of the gateway's "send" case: an `ack` frame or an `error`
frame with a code. -/
inductive SendOutcome
  | ack (d : Deliver)
  | errCode (code : String)
deriving DecidableEq, Repr

/-- `ws.Server.handleInbound`, case "send": rate limit, then the c2c
friend check / group membership check, then `MsgSvc.Send`; an ack on
success, `SEND_FAILED` on a service error. -/
def wsSend (env : Env) (st : ServerState) (userId : String) (req : SendRequest)
    (now : Int) (serverId : String) : ServerState × SendOutcome :=
  if !env.rateAllowed then (st, SendOutcome.errCode "RATE_LIMIT")
  else if req.convType = ConvType.c2c ∧ !env.isFriend userId req.toUser then
    (st, SendOutcome.errCode "NOT_FRIEND")
  else if req.convType = ConvType.group ∧ !env.isMember req.groupId userId then
    (st, SendOutcome.errCode "NOT_GROUP_MEMBER")
  else
    match send env st req now serverId with
    | (st1, Except.ok d) => (st1, SendOutcome.ack d)
    | (st1, Except.error _) => (st1, SendOutcome.errCode "SEND_FAILED")

/-- `ws.Server.handleInbound`, case "recall": `MsgSvc.Recall` is invoked
directly on the payload, with no sender or time-window check. -/
def wsRecall (st : ServerState) (convId serverMsgId : String) : ServerState :=
  { st with log := recallMsg st.log convId serverMsgId }

/-- The channels the burn-after-read `recalled` event is published to:
recipient and sender for c2c (when non-empty), the group channel for
group. -/
def recalledChannels (m : Message) : List String :=
  if m.convType = ConvType.c2c then
    (if m.toUserId ≠ "" then [m.toUserId] else []) ++
      (if m.fromUserId ≠ "" then [m.fromUserId] else [])
  else if m.groupId ≠ "" then [m.groupId] else []

/-- `ws.Server.handleInbound`, case "read": upsert the read receipt, then
load the message at `(convId, seq)`; if it exists with
`BurnAfterRead && !Recalled` (no check that the reader differs from the
sender), recall it by seq and broadcast a `recalled` event. Returns the
new state and whether the recalled event was emitted. -/
def wsRead (st : ServerState) (userId convId : String) (seq : Int) :
    ServerState × Bool :=
  match getBySeq st.log convId seq with
  | none => ({ st with readSeqs := upsertReadSeq st.readSeqs userId convId seq }, false)
  | some msg =>
    if msg.burnAfterRead = true ∧ msg.recalled = false then
      ({ st with
          readSeqs := upsertReadSeq st.readSeqs userId convId seq,
          log := recallBySeq st.log convId seq,
          published := st.published ++
            (recalledChannels msg).map fun ch => (ch, Frame.recalledEvt convId seq) },
        true)
    else ({ st with readSeqs := upsertReadSeq st.readSeqs userId convId seq }, false)

/-- The `GET /api/messages/history` handler: the authenticated user id is
discarded (`_ = uid`) and `MessageService.List` = `MessageStore.List` is
called on `(convId, fromSeq, limit)` alone. -/
def historyHandler (st : ServerState) (uid : String) (convId : String)
    (fromSeq : Int) (limit : Int) (now : Int) : List Message :=
  listMsgs st.log now convId fromSeq limit

/-- Update one stream's cached state. -/
def setStream (t : List (String × StreamInfo)) (streamId : String)
    (info : StreamInfo) : List (String × StreamInfo) :=
  match t with
  | [] => [(streamId, info)]
  | (k, v) :: rest =>
    if k = streamId then (k, info) :: rest else (k, v) :: setStream rest streamId info

/-- Redis `DEL` of one stream's cached state. -/
def delStream (t : List (String × StreamInfo)) (streamId : String) :
    List (String × StreamInfo) :=
  t.filter fun kv => !(kv.1 == streamId)

/-- `MessageService.StartStream`: allocate a stream id, cache the stream
state with in-stream seq 1, and send a `start` record. -/
def startStream (env : Env) (st : ServerState) (req : SendRequest) (now : Int)
    (serverId streamId : String) : ServerState × Except String Deliver :=
  let req1 := { req with
    streamId := streamId, streamSeq := 1,
    streamStatus := "start", isStreaming := true }
  let info : StreamInfo := {
    convId := req.convId, convType := req.convType,
    fromUser := req.fromUser, toUser := req.toUser, groupId := req.groupId, seq := 1 }
  let st1 := { st with streams := setStream st.streams streamId info }
  send env st1 req1 now serverId

/-- `MessageService.SendStreamChunk`: fetch the stream state (error
"stream not found" when absent), increment the in-stream seq, write the
state back, and send a `chunk` request (client id `streamId-seq`, payload
carrying the delta). -/
def sendStreamChunk (env : Env) (st : ServerState) (streamId delta : String)
    (now : Int) (serverId : String) : ServerState × Except String Unit :=
  match st.streams.lookup streamId with
  | none => (st, Except.error ("stream not found: " ++ streamId))
  | some info =>
    let seq := info.seq + 1
    let st1 := { st with streams := setStream st.streams streamId { info with seq := seq } }
    let req : SendRequest := {
      convId := info.convId, convType := info.convType,
      clientId := streamId ++ "-" ++ toString seq, fromUser := info.fromUser,
      toUser := info.toUser, groupId := info.groupId, mtype := "stream",
      payload := "delta:" ++ delta, streamId := streamId, streamSeq := seq,
      streamStatus := "chunk", isStreaming := true, expireAt := none,
      burnAfterRead := false }
    match send env st1 req now serverId with
    | (st2, Except.ok _) => (st2, Except.ok ())
    | (st2, Except.error e) => (st2, Except.error e)

/-- The final `end`/`error` request `MessageService.EndStream` builds:
client id `streamId-end`, stream status `error` when an error message is
present, in-stream seq one past the cached one. -/
def endReq (streamId finalText errMsg : String) (info : StreamInfo) : SendRequest :=
  { convId := info.convId, convType := info.convType,
    clientId := streamId ++ "-end", fromUser := info.fromUser,
    toUser := info.toUser, groupId := info.groupId, mtype := "stream",
    payload := "final:" ++ finalText ++ ";err:" ++ errMsg, streamId := streamId,
    streamSeq := info.seq + 1,
    streamStatus := if errMsg ≠ "" then "error" else "end", isStreaming := true,
    expireAt := none, burnAfterRead := false }

/-- `MessageService.EndStream`: fetch the stream state (error when
absent), send a final `end`/`error` record, then delete the cached
stream state unconditionally — even when the send failed — and return
the send result. -/
def endStream (env : Env) (st : ServerState) (streamId finalText errMsg : String)
    (now : Int) (serverId : String) : ServerState × Except String Unit :=
  match st.streams.lookup streamId with
  | none => (st, Except.error ("stream not found: " ++ streamId))
  | some info =>
    match send env st (endReq streamId finalText errMsg info) now serverId with
    | (st1, Except.ok _) =>
      ({ st1 with streams := delStream st1.streams streamId }, Except.ok ())
    | (st1, Except.error e) =>
      ({ st1 with streams := delStream st1.streams streamId }, Except.error e)

/-- A repeated submission of the same request: fold `Send` over the list
of per-attempt clock values and server ids. -/
def sendMany (env : Env) (st : ServerState) (req : SendRequest)
    (attempts : List (Int × String)) : ServerState :=
  attempts.foldl (fun s a => (send env s req a.1 a.2).1) st

/-- A permissive environment: everyone is a friend and a member, nobody is
muted, the rate limiter allows, the store succeeds. -/
def envOpen : Env :=
  { isFriend := fun _ _ => true, isMember := fun _ _ => true,
    isMuted := fun _ _ => false, rateAllowed := true, appendFails := false }

/-- A c2c text send request from alice to bob in conversation "c1". -/
def c2cReq (clientId : String) : SendRequest :=
  { convId := "c1", convType := ConvType.c2c, clientId := clientId,
    fromUser := "alice", toUser := "bob", groupId := "", mtype := "text",
    payload := "hi", streamId := "", streamSeq := 0, streamStatus := "",
    isStreaming := false, expireAt := none, burnAfterRead := false }

/-- The count of log records holding a given `(convId, clientMsgId)` key. -/
def countKey (log : List Message) (convId clientMsgId : String) : Nat :=
  log.countP (keyMatch convId clientMsgId)

/-- The `seq` carried by an ack, when the send succeeded. -/
def ackSeqOf (r : Except String Deliver) : Option Int :=
  match r with
  | Except.ok d => some d.seq
  | Except.error _ => none

/-- The `serverMsgId` carried by an ack, when the send succeeded. -/
def ackIdOf (r : Except String Deliver) : Option String :=
  match r with
  | Except.ok d => some d.serverMsgId
  | Except.error _ => none

/-- A group text send request by alice into group "42". -/
def groupReq : SendRequest :=
  { convId := "grp:42", convType := ConvType.group, clientId := "cm-g",
    fromUser := "alice", toUser := "", groupId := "42", mtype := "text",
    payload := "hi", streamId := "", streamSeq := 0, streamStatus := "",
    isStreaming := false, expireAt := none, burnAfterRead := false }

/-- Like `envOpen` but the mute lookup reports the sender as muted. -/
def envMuted : Env := { envOpen with isMuted := fun _ _ => true }

/-- A burn-after-read c2c message from alice to bob at seq 9. -/
def burnMsg : Message :=
  { serverMsgId := "m1", clientMsgId := "cm", convId := "c1",
    convType := ConvType.c2c, fromUserId := "alice", toUserId := "bob",
    groupId := "", seq := 9, timestamp := 0, mtype := "text", payload := "x",
    recalled := false, streamId := "", streamSeq := 0, streamStatus := "",
    isStreaming := false, expireAt := none, burnAfterRead := true }

/-- A state whose log holds only `burnMsg`. -/
def stBurn : ServerState := { initState with log := [burnMsg] }

/-- An ordinary (non-burn) message from alice, sent at timestamp 0. -/
def plainMsg : Message :=
  { serverMsgId := "m1", clientMsgId := "cm", convId := "c1",
    convType := ConvType.c2c, fromUserId := "alice", toUserId := "bob",
    groupId := "", seq := 9, timestamp := 0, mtype := "text", payload := "x",
    recalled := false, streamId := "", streamSeq := 0, streamStatus := "",
    isStreaming := false, expireAt := none, burnAfterRead := false }

/-- A state whose log holds only `plainMsg`. -/
def stPlain : ServerState := { initState with log := [plainMsg] }

/-- A message at seq 1, timestamp 10, predating user u's delete watermark. -/
def oldMsg : Message :=
  { serverMsgId := "m0", clientMsgId := "cm0", convId := "c1",
    convType := ConvType.c2c, fromUserId := "alice", toUserId := "u",
    groupId := "", seq := 1, timestamp := 10, mtype := "text", payload := "x",
    recalled := false, streamId := "", streamSeq := 0, streamStatus := "",
    isStreaming := false, expireAt := none, burnAfterRead := false }

/-- A state where user "u" holds a delete watermark at time 100 for "c1",
while `oldMsg` (timestamp 10) is still in the log. -/
def stWatermark : ServerState :=
  { initState with log := [oldMsg], convDeletes := [(("u", "c1"), 100)] }

/-- The presence invariant: a user is in the global online set iff their
device set is non-empty. -/
def presInv (p : Presence) : Prop :=
  ∀ u, u ∈ p.online ↔ devicesOf p u ≠ []

/-- One step of a sequence of "read" actions on the same `(convId, seq)`:
apply the gateway read handler for one reader and count the emitted
recalled event. -/
def readStep (convId : String) (seq : Int) (acc : ServerState × Nat)
    (u : String) : ServerState × Nat :=
  let r := wsRead acc.1 u convId seq
  (r.1, acc.2 + (if r.2 then 1 else 0))

/-- A sequence of "read" actions on the same `(convId, seq)` by the given
readers; returns the final state and the number of recalled events
emitted. -/
def readMany (st : ServerState) (readers : List String) (convId : String)
    (seq : Int) : ServerState × Nat :=
  readers.foldl (readStep convId seq) (st, 0)

/-- After a burn flip, the record found at `(convId, seq)` can no longer
trigger another flip: it is recalled or not burn-after-read. -/
def burnGone (log : List Message) (convId : String) (seq : Int) : Prop :=
  ∀ m, getBySeq log convId seq = some m →
    m.recalled = true ∨ m.burnAfterRead = false

/-- A send request whose stream status is `chunk` (delivery-only). -/
def chunkReq : SendRequest :=
  { c2cReq "cm-ch" with isStreaming := true, streamStatus := "chunk" }

/-- Demo stream run: `start_stream`, two chunks, `end_stream`, all on
stream "sid1" in the c2c conversation of `c2cReq`. -/
def demoStart : ServerState × Except String Deliver :=
  startStream envOpen initState (c2cReq "cm-s") 1 "sv1" "sid1"

def demoChunk1 : ServerState × Except String Unit :=
  sendStreamChunk envOpen demoStart.1 "sid1" "a" 2 "sv2"

def demoChunk2 : ServerState × Except String Unit :=
  sendStreamChunk envOpen demoChunk1.1 "sid1" "b" 3 "sv3"

def demoEnd : ServerState × Except String Unit :=
  endStream envOpen demoChunk2.1 "sid1" "ab" "" 4 "sv4"

/-- Whether a published frame is a live `chunk` delivery. -/
def isChunkFrame (f : Frame) : Bool :=
  match f with
  | Frame.deliver d => d.streamStatus == "chunk"
  | Frame.recalledEvt _ _ => false

/-- Like `envOpen` but every store append fails. -/
def envFail : Env := { envOpen with appendFails := true }

/-- A cached stream state for the c2c stream "sid1". -/
def demoInfo : StreamInfo :=
  { convId := "c1", convType := ConvType.c2c, fromUser := "alice",
    toUser := "bob", groupId := "", seq := 1 }

/-- A state whose stream cache holds "sid1". -/
def stStream : ServerState := { initState with streams := [("sid1", demoInfo)] }

theorem append_fresh (log : List Message) (m : Message)
    (h : log.any (keyMatch m.convId m.clientMsgId) = false) :
    appendMsg log m = log ++ [m] := by
  simp [appendMsg, h]

theorem append_dup (log : List Message) (m : Message)
    (h : log.any (keyMatch m.convId m.clientMsgId) = true) :
    appendMsg log m = log := by
  simp [appendMsg, h]

/-- C2: the claim says seq values of accepted sends in one conversation
are strictly increasing and pairwise distinct. The code assigns
`Seq: time.Now().UnixNano()`; two sends processed at the same clock
reading (distinct `clientMsgId`s, so both pass the idempotency index) are
both persisted with the same seq, violating both strict increase and
`(convId, seq)` uniqueness. -/
theorem c2_clock_seq_collision :
    ((send envOpen ((send envOpen initState (c2cReq "cm-a") 5 "s1").1)
      (c2cReq "cm-b") 5 "s2").1).log.map (fun m => (m.convId, m.seq)) =
      [("c1", 5), ("c1", 5)] := by
  decide

/-- C6: the claim says a mute-denied group send leaves the state
unchanged. In `MessageService.Send` the mute check runs *after* the
append and the conversation-index update: the denied send returns
`SEND_FAILED`, yet the message is in the log and `conversations.last_seq`
is updated (only the delivery publish is skipped). -/
theorem c6_mute_check_after_persist :
    (wsSend envMuted initState "alice" groupReq 7 "s1").2 =
        SendOutcome.errCode "SEND_FAILED" ∧
      (wsSend envMuted initState "alice" groupReq 7 "s1").1.log.map
        (fun m => m.clientMsgId) = ["cm-g"] ∧
      (wsSend envMuted initState "alice" groupReq 7 "s1").1.convLastSeq =
        [("grp:42", 7)] ∧
      (wsSend envMuted initState "alice" groupReq 7 "s1").1.published = [] := by
  decide

/-- C1 counterexample: the same `(convId, clientMsgId)` submitted twice
with identical payloads. The log keeps exactly one record, but each ack
carries the serverMsgId and seq generated for that submission: the first
ack is `(s1, 1)`, the retry ack is `(s2, 2)` — not the same serverMsgId
and seq, contrary to the claim. -/
theorem c1_counterexample :
    ackIdOf (send envOpen initState (c2cReq "cm-1") 1 "s1").2 = some "s1" ∧
      ackSeqOf (send envOpen initState (c2cReq "cm-1") 1 "s1").2 = some 1 ∧
      ackIdOf (send envOpen ((send envOpen initState (c2cReq "cm-1") 1 "s1").1)
        (c2cReq "cm-1") 2 "s2").2 = some "s2" ∧
      ackSeqOf (send envOpen ((send envOpen initState (c2cReq "cm-1") 1 "s1").1)
        (c2cReq "cm-1") 2 "s2").2 = some 2 ∧
      ((send envOpen ((send envOpen initState (c2cReq "cm-1") 1 "s1").1)
        (c2cReq "cm-1") 2 "s2").1).log.length = 1 ∧
      ackIdOf (send envOpen ((send envOpen initState (c2cReq "cm-1") 1 "s1").1)
          (c2cReq "cm-1") 2 "s2").2 ≠
        ackIdOf (send envOpen initState (c2cReq "cm-1") 1 "s1").2 := by
  decide

/-- C3 counterexample: alice sent `burnMsg` (burn-after-read) and alice
herself reads it. The claim requires the flip to happen only when the
reader is not the sender; the gateway's "read" case checks only
`BurnAfterRead && !Recalled`, so the sender's own read flips the message
and emits the recalled event. -/
theorem c3_counterexample :
    (wsRead stBurn "alice" "c1" 9).2 = true ∧
      (wsRead stBurn "alice" "c1" 9).1.log.map (fun m => m.recalled) = [true] ∧
      burnMsg.fromUserId = "alice" := by
  decide

/-- C5 counterexample: the stored read seq for `(u, c)` is 5; a
mark-all-read chunk write with incoming `last_seq = 3` overwrites it to 3
(`ON DUPLICATE KEY UPDATE seq=VALUES(seq)`), while the claim's
monotonic-max semantics would leave it at 5. -/
theorem c5_counterexample :
    getReadSeq (upsertReadSeq [] "u" "c" 5) "u" "c" = 5 ∧
      getReadSeq (markAllReadTx (upsertReadSeq [] "u" "c" 5) "u" ["c"]
        (fun _ => 3)) "u" "c" = 3 := by
  decide

/-- C7 counterexample: `plainMsg` was sent by alice at timestamp 0. A
recall arriving at t = 601s — far past the 5-minute window the domain
policy `CanRecall` encodes, and through a gateway path that never even
learns who requested it — still marks the message recalled. -/
theorem c7_counterexample :
    (wsRecall stPlain "c1" "m1").log.map (fun m => m.recalled) = [true] ∧
      canRecall plainMsg.recalled plainMsg.timestamp 601000000000 = false := by
  decide

/-- C4 counterexample: user "u" holds a delete watermark at time 100 for
conversation "c1", and `oldMsg` (timestamp 10) predates it. The history
handler discards the authenticated user and `MessageStore.List` never
consults `conv_deletes`, so the pre-watermark message is returned. -/
theorem c4_counterexample :
    historyHandler stWatermark "u" "c1" 0 0 1000 = [oldMsg] ∧
      stWatermark.convDeletes = [(("u", "c1"), 100)] ∧
      oldMsg.timestamp < 100 := by
  constructor
  · simp [historyHandler, listMsgs, stWatermark, normLimit,
      List.insertionSort, histPred, oldMsg, initState]
  · constructor
    · rfl
    · decide

theorem updateConvIndex_log (st : ServerState) (req : SendRequest) (m : Message) :
    (updateConvIndex st req m).log = st.log := rfl

theorem publishSend_log (st : ServerState) (req : SendRequest) (d : Deliver) :
    (publishSend st req d).log = st.log := by
  unfold publishSend
  split <;> rfl

theorem send_log (env : Env) (st : ServerState) (req : SendRequest) (now : Int)
    (serverId : String) (hstore : shouldStore req = true)
    (hf : env.appendFails = false) :
    ((send env st req now serverId).1).log =
      appendMsg st.log (buildMsg req now serverId) := by
  unfold send
  rw [if_neg (by simp [hf])]
  simp only [hstore, if_true]
  split
  · split <;> simp [publishSend_log, updateConvIndex_log]
  · split <;> simp [publishSend_log, updateConvIndex_log]

theorem keyMatch_buildMsg (req : SendRequest) (now : Int) (serverId : String) :
    keyMatch req.convId req.clientId (buildMsg req now serverId) = true := by
  simp [keyMatch, buildMsg]

theorem countKey_append_same (log : List Message) (req : SendRequest) (now : Int)
    (serverId : String) :
    countKey (appendMsg log (buildMsg req now serverId)) req.convId req.clientId =
      if countKey log req.convId req.clientId = 0 then 1
      else countKey log req.convId req.clientId := by
  unfold appendMsg countKey
  by_cases h : log.any (keyMatch req.convId req.clientId) = true
  · have hne : log.countP (keyMatch req.convId req.clientId) ≠ 0 := by
      intro hz
      rw [List.countP_eq_zero] at hz
      rw [List.any_eq_true] at h
      obtain ⟨x, hx, hpx⟩ := h
      exact hz x hx hpx
    simp only [buildMsg, h, if_true]
    simp [buildMsg] at h
    simp [h, hne]
  · have hz : log.countP (keyMatch req.convId req.clientId) = 0 := by
      rw [List.countP_eq_zero]
      intro a ha hpa
      exact h (List.any_eq_true.mpr ⟨a, ha, hpa⟩)
    simp only [buildMsg] at h ⊢
    simp only [Bool.not_eq_true] at h
    simp [h, hz, List.countP_append, List.countP_cons, keyMatch]

theorem sendMany_cons (env : Env) (st : ServerState) (req : SendRequest)
    (a : Int × String) (rest : List (Int × String)) :
    sendMany env st req (a :: rest) =
      sendMany env (send env st req a.1 a.2).1 req rest := rfl

theorem countKey_sendMany_stable (env : Env) (req : SendRequest)
    (hstore : shouldStore req = true) (hf : env.appendFails = false)
    (attempts : List (Int × String)) (st : ServerState)
    (h1 : countKey st.log req.convId req.clientId = 1) :
    countKey (sendMany env st req attempts).log req.convId req.clientId = 1 := by
  induction attempts generalizing st with
  | nil => exact h1
  | cons a rest ih =>
    rw [sendMany_cons]
    apply ih
    rw [send_log env st req a.1 a.2 hstore hf, countKey_append_same, h1]
    simp

/-- C1 (amended): for any number of submissions of one request (arbitrary
per-attempt clock values and server ids), the log contains exactly one
record for `(convId, clientMsgId)`; but each successful ack carries the
serverMsgId and seq generated for that very submission, so a retry's ack
repeats neither the original serverMsgId nor the original seq. -/
theorem c1_idempotent_log_amended (env : Env) (req : SendRequest)
    (attempts : List (Int × String)) (st : ServerState) (now : Int)
    (serverId : String) (d : Deliver)
    (hstream : req.isStreaming = false) (hf : env.appendFails = false) :
    (attempts ≠ [] →
      countKey (sendMany env initState req attempts).log req.convId req.clientId = 1) ∧
    ((send env st req now serverId).2 = Except.ok d →
      d.serverMsgId = serverId ∧ d.seq = now) := by
  have hstore : shouldStore req = true := by simp [shouldStore, hstream]
  constructor
  · intro hne
    match attempts with
    | [] => exact absurd rfl hne
    | a :: rest =>
      rw [sendMany_cons]
      apply countKey_sendMany_stable env req hstore hf rest
      rw [send_log env initState req a.1 a.2 hstore hf, countKey_append_same]
      simp [countKey, initState]
  · intro hok
    unfold send at hok
    split at hok
    · simp at hok
    · split at hok <;>
        (rw [apply_ite Prod.snd] at hok
         split at hok
         · simp at hok
         · injection hok with h
           subst h
           exact ⟨rfl, rfl⟩)

/-- Witness for `c1_idempotent_log_amended` at a concrete input: two
submissions of `cm-1` leave one record; a concrete successful ack carries
its own submission's server id and clock value. -/
theorem c1_amended_witness :
    countKey (sendMany envOpen initState (c2cReq "cm-1") [(1, "s1"), (2, "s2")]).log
        "c1" "cm-1" = 1 ∧
      ((send envOpen initState (c2cReq "cm-1") 3 "s3").2 =
          Except.ok (deliverOf (buildMsg (c2cReq "cm-1") 3 "s3")) →
        (deliverOf (buildMsg (c2cReq "cm-1") 3 "s3")).serverMsgId = "s3" ∧
          (deliverOf (buildMsg (c2cReq "cm-1") 3 "s3")).seq = 3) :=
  ⟨(c1_idempotent_log_amended envOpen (c2cReq "cm-1") [(1, "s1"), (2, "s2")]
      initState 3 "s3" (deliverOf (buildMsg (c2cReq "cm-1") 3 "s3")) rfl rfl).1
      (by decide),
   (c1_idempotent_log_amended envOpen (c2cReq "cm-1") [(1, "s1"), (2, "s2")]
      initState 3 "s3" (deliverOf (buildMsg (c2cReq "cm-1") 3 "s3")) rfl rfl).2⟩

theorem getReadSeq_upsert (t : List ((String × String) × Int)) (u c : String)
    (s : Int) (hs : 0 ≤ s) :
    getReadSeq (upsertReadSeq t u c s) u c = max (getReadSeq t u c) s := by
  induction t with
  | nil =>
    simp [upsertReadSeq, getReadSeq]
    exact hs
  | cons kv rest ih =>
    obtain ⟨k, v⟩ := kv
    by_cases hk : k = (u, c)
    · by_cases hvs : v < s
      · simp [upsertReadSeq, getReadSeq, hk, hvs]
        exact hvs.le
      · simp [upsertReadSeq, getReadSeq, hk, hvs]
        exact not_lt.mp hvs
    · simpa [upsertReadSeq, getReadSeq, hk] using ih

theorem getReadSeq_overwrite (t : List ((String × String) × Int)) (u c : String)
    (s : Int) :
    getReadSeq (overwriteReadSeq t u c s) u c = s := by
  induction t with
  | nil => simp [overwriteReadSeq, getReadSeq]
  | cons kv rest ih =>
    obtain ⟨k, v⟩ := kv
    by_cases hk : k = (u, c)
    · simp [overwriteReadSeq, getReadSeq, hk]
    · simpa [overwriteReadSeq, getReadSeq, hk] using ih

theorem getReadSeq_upsertFold (u c : String) (inputs : List Int) :
    ∀ t : List ((String × String) × Int), (∀ x ∈ inputs, 0 ≤ x) →
      0 ≤ getReadSeq t u c →
      getReadSeq (inputs.foldl (fun acc x => upsertReadSeq acc u c x) t) u c =
        inputs.foldl max (getReadSeq t u c) := by
  induction inputs with
  | nil => intro t _ _; rfl
  | cons s rest ih =>
    intro t hin ht
    have hs : 0 ≤ s := hin s (List.mem_cons_self s rest)
    rw [List.foldl_cons, List.foldl_cons]
    have h1 : getReadSeq (upsertReadSeq t u c s) u c = max (getReadSeq t u c) s :=
      getReadSeq_upsert t u c s hs
    rw [← h1]
    exact ih (upsertReadSeq t u c s) (fun x hx => hin x (List.mem_cons_of_mem s hx))
      (by rw [h1]; exact le_max_of_le_right hs)

/-- C5 (amended): the single read-receipt upsert (`UpsertReadSeq`) does
use monotonic-max semantics — after the write the stored value is
`max(stored, incoming)` and a fold of nonnegative upserts stores the
maximum of all inputs — but the per-chunk write of mark-all-read
(`MarkAllReadTx`, `ON DUPLICATE KEY UPDATE seq=VALUES(seq)`) overwrites
the stored value with the incoming one unconditionally whenever the
incoming `last_seq` is positive (nonpositive values are skipped), so a
mark-all-read write with incoming below the stored value lowers it. -/
theorem c5_readseq_amended (t : List ((String × String) × Int)) (u c : String)
    (s : Int) (inputs : List Int) :
    (0 ≤ s → getReadSeq (upsertReadSeq t u c s) u c = max (getReadSeq t u c) s) ∧
      ((∀ x ∈ inputs, 0 ≤ x) →
        getReadSeq (inputs.foldl (fun acc x => upsertReadSeq acc u c x) []) u c =
          inputs.foldl max 0) ∧
      (0 < s → getReadSeq (markAllReadTx t u [c] (fun _ => s)) u c = s) ∧
      (s ≤ 0 → markAllReadTx t u [c] (fun _ => s) = t) := by
  refine ⟨fun hs => getReadSeq_upsert t u c s hs, fun hin => ?_, fun hs => ?_, fun hs => ?_⟩
  · have h0 : getReadSeq ([] : List ((String × String) × Int)) u c = 0 := rfl
    rw [getReadSeq_upsertFold u c inputs [] hin (by rw [h0]), h0]
  · have hcond : ¬((fun _ : String => s) c ≤ 0) := not_le.mpr hs
    simp only [markAllReadTx, List.foldl_cons, List.foldl_nil, hcond, if_false]
    exact getReadSeq_overwrite t u c s
  · simp [markAllReadTx, hs]

/-- Witness for `c5_readseq_amended`: stored 5, upsert 3 keeps 5 (the
monotonic-max path), while a mark-all-read write of 3 overwrites 5 with
3. -/
theorem c5_amended_witness :
    getReadSeq (upsertReadSeq [(("u", "c"), 5)] "u" "c" 3) "u" "c" =
        max (getReadSeq [(("u", "c"), 5)] "u" "c") 3 ∧
      getReadSeq (markAllReadTx [(("u", "c"), 5)] "u" ["c"] (fun _ => 3)) "u" "c" = 3 :=
  ⟨(c5_readseq_amended [(("u", "c"), 5)] "u" "c" 3 []).1 (by decide),
   (c5_readseq_amended [(("u", "c"), 5)] "u" "c" 3 []).2.2.1 (by decide)⟩

theorem mem_sAdd (l : List String) (x y : String) :
    y ∈ sAdd l x ↔ y ∈ l ∨ y = x := by
  unfold sAdd
  by_cases hx : x ∈ l
  · rw [if_pos (List.elem_iff.mpr hx)]
    constructor
    · exact Or.inl
    · intro hor
      cases hor with
      | inl hy => exact hy
      | inr hy => exact hy ▸ hx
  · rw [if_neg (fun hc => hx (List.elem_iff.mp hc))]
    simp [List.mem_append]

theorem mem_sRem (l : List String) (x y : String) :
    y ∈ sRem l x ↔ y ∈ l ∧ y ≠ x := by
  unfold sRem
  rw [List.mem_filter]
  simp

theorem sRem_nil (x : String) : sRem [] x = [] := rfl

theorem devicesOf_setDevices_self (t : List (String × List String)) (u : String)
    (l : List String) : (setDevices t u l).lookup u = some l := by
  induction t with
  | nil => simp [setDevices, List.lookup]
  | cons kv rest ih =>
    obtain ⟨k, v⟩ := kv
    by_cases hk : k = u
    · simp [setDevices, hk, List.lookup]
    · have hne : (u == k) = false := by
        simp [beq_iff_eq]
        exact fun h => hk h.symm
      simp [setDevices, hk, List.lookup, hne, ih]

theorem devicesOf_setDevices_ne (t : List (String × List String)) (u v : String)
    (l : List String) (h : v ≠ u) :
    (setDevices t u l).lookup v = t.lookup v := by
  induction t with
  | nil =>
    have hne : (v == u) = false := by simpa [beq_iff_eq] using h
    simp [setDevices, List.lookup, hne]
  | cons kv rest ih =>
    obtain ⟨k, w⟩ := kv
    by_cases hk : k = u
    · subst hk
      have hne : (v == k) = false := by simpa [beq_iff_eq] using h
      simp [setDevices, List.lookup, hne]
    · simp [setDevices, hk, List.lookup]
      split
      · rfl
      · exact ih

theorem presInv_init : presInv initPresence := by
  intro u
  simp [initPresence, devicesOf, List.lookup]

theorem sAdd_ne_nil (l : List String) (x : String) : sAdd l x ≠ [] := by
  unfold sAdd
  split
  · intro hnil
    subst hnil
    simp at *
  · simp

theorem presInv_step (p : Presence) (op : PresOp) (h : presInv p) :
    presInv (applyPresOp p op) := by
  cases op with
  | conn u d =>
    intro v
    simp only [applyPresOp, setDeviceOnline, devicesOf]
    by_cases hv : v = u
    · subst hv
      rw [devicesOf_setDevices_self]
      simp [mem_sAdd, sAdd_ne_nil]
    · rw [devicesOf_setDevices_ne p.devices u v _ hv]
      rw [mem_sAdd]
      simp only [hv, or_false]
      exact h v
  | disc u d =>
    intro v
    have hdevices : ∀ w, devicesOf (setDeviceOffline p u d) w =
        if w = u then sRem (devicesOf p u) d else devicesOf p w := by
      intro w
      by_cases hw : w = u
      · subst hw
        simp only [setDeviceOffline, devicesOf, if_pos rfl]
        rw [devicesOf_setDevices_self]
        simp
      · simp only [setDeviceOffline, devicesOf, if_neg hw]
        rw [devicesOf_setDevices_ne p.devices u w _ hw]
    have honline : (setDeviceOffline p u d).online =
        if (sRem (devicesOf p u) d).isEmpty = true then sRem p.online u
        else p.online := rfl
    show v ∈ (setDeviceOffline p u d).online ↔ devicesOf (setDeviceOffline p u d) v ≠ []
    rw [honline, hdevices v]
    by_cases hv : v = u
    · subst hv
      rw [if_pos rfl]
      by_cases hemp : (sRem (devicesOf p v) d).isEmpty = true
      · rw [if_pos hemp, mem_sRem]
        rw [List.isEmpty_iff] at hemp
        simp [hemp]
      · rw [if_neg hemp]
        rw [List.isEmpty_iff] at hemp
        constructor
        · intro _
          exact hemp
        · intro _
          apply (h v).mpr
          intro hnil
          apply hemp
          rw [hnil]
          rfl
    · rw [if_neg hv]
      by_cases hemp : (sRem (devicesOf p u) d).isEmpty = true
      · rw [if_pos hemp, mem_sRem]
        simp only [hv, ne_eq, not_false_iff, and_true]
        exact h v
      · rw [if_neg hemp]
        exact h v

/-- C9: after any sequence of `set_online(u, d)` / `set_offline(u, d)`
transitions executed sequentially from the empty state, a user is in the
global online set iff their device set is non-empty; in particular
`set_offline` evicts the user from the online set exactly when it removed
the last device. -/
theorem c9_presence_invariant (ops : List PresOp) (u : String) :
    u ∈ (runPres ops).online ↔ devicesOf (runPres ops) u ≠ [] := by
  suffices h : presInv (runPres ops) from h u
  unfold runPres
  induction ops using List.reverseRecOn with
  | nil => exact presInv_init
  | append_singleton rest op ih =>
    rw [List.foldl_append, List.foldl_cons, List.foldl_nil]
    exact presInv_step _ op ih

theorem listMsgs_mem (log : List Message) (now : Int) (convId : String)
    (fromSeq limit : Int) (m : Message)
    (hm : m ∈ listMsgs log now convId fromSeq limit) :
    m ∈ log ∧ histPred now convId fromSeq m = true := by
  unfold listMsgs at hm
  have h1 : m ∈ (log.filter (histPred now convId fromSeq)).insertionSort seqLe :=
    (List.take_sublist _ _).subset hm
  have h2 : m ∈ log.filter (histPred now convId fromSeq) :=
    (List.perm_insertionSort seqLe _).subset h1
  exact List.mem_filter.mp h2

theorem recallMsg_length (log : List Message) (convId serverMsgId : String) :
    (recallMsg log convId serverMsgId).length = log.length := by
  unfold recallMsg
  exact List.length_map log _

theorem recallMsg_serverIds (log : List Message) (convId serverMsgId : String) :
    (recallMsg log convId serverMsgId).map (fun m => m.serverMsgId) =
      log.map (fun m => m.serverMsgId) := by
  unfold recallMsg
  rw [List.map_map]
  apply List.map_congr_left
  intro m _
  simp only [Function.comp]
  split <;> rfl

theorem recallMsg_marks (log : List Message) (convId serverMsgId : String)
    (m : Message) (hm : m ∈ recallMsg log convId serverMsgId)
    (hc : m.convId = convId) (hs : m.serverMsgId = serverMsgId) :
    m.recalled = true := by
  unfold recallMsg at hm
  rw [List.mem_map] at hm
  obtain ⟨x, _, hx⟩ := hm
  by_cases hcond : (x.convId == convId && x.serverMsgId == serverMsgId) = true
  · rw [if_pos hcond] at hx
    rw [← hx]
  · rw [if_neg hcond] at hx
    subst hx
    rw [hc, hs] at hcond
    simp at hcond

/-- C7 (amended): the wired recall path (`handleInbound` case "recall" →
`MessageService.Recall` → `MessageStore.Recall`) applies no policy check:
any `recall(convId, serverMsgId)` request marks the matching message
recalled, regardless of who requested it and how much time has elapsed
(the domain rule `Message.CanRecall` — not recalled, within 5 minutes —
exists but is not invoked on this path); in all cases the recalled record
remains in storage (same log length, same server ids) and is excluded
from subsequent history listings. -/
theorem c7_recall_amended (st : ServerState) (convId serverMsgId : String) :
    (wsRecall st convId serverMsgId).log.length = st.log.length ∧
      (wsRecall st convId serverMsgId).log.map (fun m => m.serverMsgId) =
        st.log.map (fun m => m.serverMsgId) ∧
      (∀ m ∈ (wsRecall st convId serverMsgId).log,
        m.convId = convId → m.serverMsgId = serverMsgId → m.recalled = true) ∧
      (∀ now fromSeq limit : Int, ∀ m,
        m ∈ listMsgs (wsRecall st convId serverMsgId).log now convId fromSeq limit →
          ¬(m.convId = convId ∧ m.serverMsgId = serverMsgId)) := by
  refine ⟨recallMsg_length st.log convId serverMsgId,
    recallMsg_serverIds st.log convId serverMsgId,
    fun m hm hc hs => recallMsg_marks st.log convId serverMsgId m hm hc hs,
    fun now fromSeq limit m hm hkey => ?_⟩
  obtain ⟨hmem, hpred⟩ := listMsgs_mem _ now convId fromSeq limit m hm
  have hrec : m.recalled = true :=
    recallMsg_marks st.log convId serverMsgId m hmem hkey.1 hkey.2
  unfold histPred at hpred
  rw [hrec] at hpred
  simp at hpred

/-- Witness for `c7_recall_amended` at the concrete state `stPlain`: the
recall (issued long after the 5-minute window, with no requester known to
the handler) keeps the record in storage and marks it recalled. -/
theorem c7_amended_witness :
    (wsRecall stPlain "c1" "m1").log.length = stPlain.log.length ∧
      ({ plainMsg with recalled := true } : Message).recalled = true :=
  ⟨(c7_recall_amended stPlain "c1" "m1").1,
   (c7_recall_amended stPlain "c1" "m1").2.2.1 { plainMsg with recalled := true }
     (by decide) rfl rfl⟩

/-- C4 (amended): `history(convId, fromSeq, limit)` returns exactly the
stored messages of the conversation with `seq > fromSeq`, not recalled,
and not expired, in ascending `seq` order, capped at the normalised limit
(default 50 when `limit ≤ 0`, and a limit above 200 also falls back to
50) — but with no delete-watermark filtering: the handler discards the
authenticated user and neither store implementation consults
`conv_deletes`. Soundness, sortedness, the cap, and completeness under
the cap are stated below. -/
theorem c4_history_amended (st : ServerState) (uid convId : String)
    (fromSeq limit now : Int) :
    (∀ m ∈ historyHandler st uid convId fromSeq limit now,
        m ∈ st.log ∧ histPred now convId fromSeq m = true) ∧
      List.Pairwise seqLe (historyHandler st uid convId fromSeq limit now) ∧
      (historyHandler st uid convId fromSeq limit now).length ≤ normLimit limit ∧
      ((st.log.filter (histPred now convId fromSeq)).length ≤ normLimit limit →
        ∀ m ∈ st.log, histPred now convId fromSeq m = true →
          m ∈ historyHandler st uid convId fromSeq limit now) := by
  refine ⟨fun m hm => listMsgs_mem st.log now convId fromSeq limit m hm, ?_, ?_, ?_⟩
  · have hs : List.Pairwise seqLe
        ((st.log.filter (histPred now convId fromSeq)).insertionSort seqLe) :=
      List.sorted_insertionSort seqLe _
    exact List.Pairwise.sublist (List.take_sublist _ _) hs
  · unfold historyHandler listMsgs
    rw [List.length_take]
    exact min_le_left _ _
  · intro hlen m hmem hpred
    unfold historyHandler listMsgs
    have hperm := List.perm_insertionSort seqLe (st.log.filter (histPred now convId fromSeq))
    have hlen2 : ((st.log.filter (histPred now convId fromSeq)).insertionSort seqLe).length ≤
        normLimit limit := by
      rw [hperm.length_eq]
      exact hlen
    rw [List.take_of_length_le hlen2]
    exact hperm.mem_iff.mpr (List.mem_filter.mpr ⟨hmem, hpred⟩)

/-- Witness for `c4_history_amended` at the concrete state `stWatermark`:
the single matching record is returned (completeness under the cap) and
every returned record satisfies the history predicate. -/
theorem c4_amended_witness :
    oldMsg ∈ historyHandler stWatermark "u" "c1" 0 0 1000 ∧
      (oldMsg ∈ stWatermark.log ∧ histPred 1000 "c1" 0 oldMsg = true) :=
  ⟨(c4_history_amended stWatermark "u" "c1" 0 0 1000).2.2.2 (by decide) oldMsg
      (by decide) (by decide),
   (c4_history_amended stWatermark "u" "c1" 0 0 1000).1 oldMsg
      ((c4_history_amended stWatermark "u" "c1" 0 0 1000).2.2.2 (by decide) oldMsg
        (by decide) (by decide))⟩

theorem getBySeq_recallBySeq (log : List Message) (c : String) (q : Int) :
    getBySeq (recallBySeq log c q) c q =
      (getBySeq log c q).map
        (fun m =>
          if m.convId == c && m.seq == q && m.burnAfterRead then
            { m with recalled := true }
          else m) := by
  unfold getBySeq recallBySeq
  rw [List.find?_map]
  have hpf : ((fun m : Message => m.convId == c && m.seq == q) ∘ fun m =>
      if (m.convId == c && m.seq == q && m.burnAfterRead) = true then
        { m with recalled := true }
      else m) = (fun m : Message => m.convId == c && m.seq == q) := by
    funext m
    by_cases hm : (m.convId == c && m.seq == q && m.burnAfterRead) = true
    · simp only [Function.comp_apply, if_pos hm]
    · simp only [Function.comp_apply, if_neg hm]
  rw [hpf]

theorem wsRead_eq_none (st : ServerState) (u convId : String) (seq : Int)
    (hg : getBySeq st.log convId seq = none) :
    wsRead st u convId seq =
      ({ st with readSeqs := upsertReadSeq st.readSeqs u convId seq }, false) := by
  unfold wsRead
  split
  · rfl
  · rename_i m hm
    rw [hg] at hm
    cases hm

theorem wsRead_eq_some_hit (st : ServerState) (u convId : String) (seq : Int)
    (msg : Message) (hg : getBySeq st.log convId seq = some msg)
    (hc : msg.burnAfterRead = true ∧ msg.recalled = false) :
    wsRead st u convId seq =
      ({ st with
          readSeqs := upsertReadSeq st.readSeqs u convId seq,
          log := recallBySeq st.log convId seq,
          published := st.published ++
            (recalledChannels msg).map fun ch => (ch, Frame.recalledEvt convId seq) },
        true) := by
  unfold wsRead
  split
  · rename_i hm
    exact absurd (hg.symm.trans hm) (by simp)
  · rename_i m hm
    have hmm : msg = m := by
      have h2 := hg.symm.trans hm
      injection h2
    subst hmm
    rw [if_pos hc]

theorem wsRead_eq_some_miss (st : ServerState) (u convId : String) (seq : Int)
    (msg : Message) (hg : getBySeq st.log convId seq = some msg)
    (hc : ¬(msg.burnAfterRead = true ∧ msg.recalled = false)) :
    wsRead st u convId seq =
      ({ st with readSeqs := upsertReadSeq st.readSeqs u convId seq }, false) := by
  unfold wsRead
  split
  · rename_i hm
    exact absurd (hg.symm.trans hm) (by simp)
  · rename_i m hm
    have hmm : msg = m := by
      have h2 := hg.symm.trans hm
      injection h2
    subst hmm
    rw [if_neg hc]

theorem wsRead_emit_burnGone (st : ServerState) (u convId : String) (seq : Int)
    (h : (wsRead st u convId seq).2 = true) :
    burnGone (wsRead st u convId seq).1.log convId seq := by
  cases hg : getBySeq st.log convId seq with
  | none =>
    rw [wsRead_eq_none st u convId seq hg] at h
    exact absurd h Bool.false_ne_true
  | some msg =>
    by_cases hc : msg.burnAfterRead = true ∧ msg.recalled = false
    · rw [wsRead_eq_some_hit st u convId seq msg hg hc]
      intro m hm
      rw [getBySeq_recallBySeq, hg] at hm
      simp only [Option.map_some'] at hm
      have hpm : (msg.convId == convId && msg.seq == seq) = true := by
        have h2 : getBySeq st.log convId seq = some msg := hg
        unfold getBySeq at h2
        exact @List.find?_some Message (fun m => m.convId == convId && m.seq == seq)
          msg st.log h2
      have hcond : (msg.convId == convId && msg.seq == seq && msg.burnAfterRead) = true := by
        rw [hpm, hc.1]
        rfl
      rw [if_pos hcond] at hm
      cases hm
      exact Or.inl rfl
    · rw [wsRead_eq_some_miss st u convId seq msg hg hc] at h
      exact absurd h Bool.false_ne_true

theorem wsRead_noEmit (st : ServerState) (u convId : String) (seq : Int)
    (hbg : burnGone st.log convId seq) :
    (wsRead st u convId seq).2 = false ∧ (wsRead st u convId seq).1.log = st.log := by
  cases hg : getBySeq st.log convId seq with
  | none =>
    rw [wsRead_eq_none st u convId seq hg]
    exact ⟨rfl, rfl⟩
  | some msg =>
    have hnc : ¬(msg.burnAfterRead = true ∧ msg.recalled = false) := by
      intro hc
      cases hbg msg hg with
      | inl hr => rw [hr] at hc; simp at hc
      | inr hb => rw [hb] at hc; simp at hc
    rw [wsRead_eq_some_miss st u convId seq msg hg hnc]
    exact ⟨rfl, rfl⟩

theorem readFold_aux (convId : String) (seq : Int) (readers : List String) :
    ∀ (st : ServerState) (n : Nat),
      ((readers.foldl (readStep convId seq) (st, n)).2 ≤ n + 1) ∧
        (burnGone st.log convId seq →
          (readers.foldl (readStep convId seq) (st, n)).2 ≤ n) := by
  induction readers with
  | nil =>
    intro st n
    exact ⟨Nat.le_succ n, fun _ => Nat.le_refl n⟩
  | cons u rest ih =>
    intro st n
    rw [List.foldl_cons]
    by_cases hemit : (wsRead st u convId seq).2 = true
    · have hstep : readStep convId seq (st, n) u = ((wsRead st u convId seq).1, n + 1) := by
        simp [readStep, hemit]
      rw [hstep]
      constructor
      · exact (ih _ (n + 1)).2 (wsRead_emit_burnGone st u convId seq hemit)
      · intro hbg
        have := (wsRead_noEmit st u convId seq hbg).1
        rw [this] at hemit
        simp at hemit
    · have hstep : readStep convId seq (st, n) u = ((wsRead st u convId seq).1, n) := by
        simp [readStep, hemit]
      rw [hstep]
      constructor
      · exact Nat.le_trans ((ih _ n).1) (Nat.le_refl _)
      · intro hbg
        have hlog := (wsRead_noEmit st u convId seq hbg).2
        exact (ih _ n).2 (by rw [hlog]; exact hbg)

/-- C3 (amended): on `read(convId, seq)` the gateway flips the message
and publishes the recalled event exactly when the stored message at
`(convId, seq)` has `burnAfterRead = true` and `recalled = false` — with
no condition on the reader, so the sender's own read also triggers it —
and because the flip is guarded by `recalled = false` and sets
`recalled`, any sequence of reads of the same message emits at most one
recalled event. -/
theorem c3_burn_flip_amended (st : ServerState) (u convId : String) (seq : Int)
    (readers : List String) :
    ((wsRead st u convId seq).2 = true ↔
        ∃ m, getBySeq st.log convId seq = some m ∧
          m.burnAfterRead = true ∧ m.recalled = false) ∧
      (readMany st readers convId seq).2 ≤ 1 := by
  constructor
  · cases hg : getBySeq st.log convId seq with
    | none =>
      rw [wsRead_eq_none st u convId seq hg]
      simp
    | some msg =>
      by_cases hc : msg.burnAfterRead = true ∧ msg.recalled = false
      · rw [wsRead_eq_some_hit st u convId seq msg hg hc]
        constructor
        · intro _
          exact ⟨msg, rfl, hc.1, hc.2⟩
        · intro _
          rfl
      · rw [wsRead_eq_some_miss st u convId seq msg hg hc]
        constructor
        · intro hfalse
          exact absurd hfalse Bool.false_ne_true
        · intro hm
          obtain ⟨m, hsome, hb, hr⟩ := hm
          injection hsome with hsome
          subst hsome
          exact absurd ⟨hb, hr⟩ hc
  · exact (readFold_aux convId seq readers st 0).1

/-- Witness for `c3_burn_flip_amended` at the concrete state `stBurn`:
the (sender's) read emits the event, and two successive reads emit at
most one event. -/
theorem c3_amended_witness :
    (wsRead stBurn "alice" "c1" 9).2 = true ∧
      (readMany stBurn ["alice", "bob"] "c1" 9).2 ≤ 1 :=
  ⟨(c3_burn_flip_amended stBurn "alice" "c1" 9 ["alice", "bob"]).1.mpr
      ⟨burnMsg, by decide, rfl, rfl⟩,
   (c3_burn_flip_amended stBurn "alice" "c1" 9 ["alice", "bob"]).2⟩

theorem publishSend_streams (st : ServerState) (req : SendRequest) (d : Deliver) :
    (publishSend st req d).streams = st.streams := by
  unfold publishSend
  split <;> rfl

theorem updateConvIndex_streams (st : ServerState) (req : SendRequest) (m : Message) :
    (updateConvIndex st req m).streams = st.streams := rfl

theorem send_streams (env : Env) (st : ServerState) (req : SendRequest) (now : Int)
    (serverId : String) : ((send env st req now serverId).1).streams = st.streams := by
  unfold send
  split
  · rfl
  · split <;> split <;> split <;>
      simp [publishSend_streams, updateConvIndex_streams]

theorem send_log_nostore (env : Env) (st : ServerState) (req : SendRequest)
    (now : Int) (serverId : String) (h : shouldStore req = false) :
    (send env st req now serverId).1.log = st.log := by
  unfold send
  rw [if_neg (by simp [h])]
  simp only [h, Bool.false_eq_true, if_false]
  split
  · split <;> simp [publishSend_log, updateConvIndex_log]
  · split <;> simp [publishSend_log, updateConvIndex_log]

/-- C8: a send is appended to the message log iff it is non-streaming or
its stream status is start, end or error (`shouldStore`); a `chunk` send
leaves the log unchanged but is published live. In the demo run — one
start, two chunks, one end — the final log holds exactly the start and
end records of the stream, while the recipient saw two live chunk
publishes. -/
theorem c8_stream_persistence (env : Env) (st : ServerState) (req : SendRequest)
    (now : Int) (serverId : String) :
    (shouldStore req = false → (send env st req now serverId).1.log = st.log) ∧
      (shouldStore req = true → env.appendFails = false →
        (send env st req now serverId).1.log =
          appendMsg st.log (buildMsg req now serverId)) ∧
      (demoEnd.1.log.map fun m => (m.streamId, m.streamStatus)) =
        [("sid1", "start"), ("sid1", "end")] ∧
      demoEnd.1.published.countP
        (fun p => p.1 == "bob" && isChunkFrame p.2) = 2 := by
  refine ⟨fun h => send_log_nostore env st req now serverId h,
    fun hs hf => send_log env st req now serverId hs hf, ?_, ?_⟩
  · decide
  · decide

/-- Witness for `c8_stream_persistence`: a concrete chunk send is not
persisted; a concrete non-streaming send is appended. -/
theorem c8_witness :
    (send envOpen initState chunkReq 5 "sv5").1.log = initState.log ∧
      (send envOpen initState (c2cReq "cm-w") 6 "sv6").1.log =
        appendMsg initState.log (buildMsg (c2cReq "cm-w") 6 "sv6") :=
  ⟨(c8_stream_persistence envOpen initState chunkReq 5 "sv5").1 (by decide),
   (c8_stream_persistence envOpen initState (c2cReq "cm-w") 6 "sv6").2.1
     (by decide) rfl⟩

theorem delStream_lookup (t : List (String × StreamInfo)) (sid : String) :
    (delStream t sid).lookup sid = none := by
  induction t with
  | nil => rfl
  | cons kv rest ih =>
    obtain ⟨k, v⟩ := kv
    by_cases hk : (k == sid) = true
    · simpa [delStream, hk] using ih
    · have hks : (sid == k) = false := by
        rw [Bool.eq_false_iff]
        intro hkk
        rw [beq_iff_eq] at hkk
        rw [hkk] at hk
        simp at hk
      simpa [delStream, hk, List.lookup, hks] using ih

theorem endStream_destroys_lookup (env : Env) (st : ServerState)
    (sid ft em : String) (now : Int) (sv : String) (info : StreamInfo)
    (hs : st.streams.lookup sid = some info) :
    (endStream env st sid ft em now sv).1.streams.lookup sid = none := by
  unfold endStream
  split
  · rename_i hm
    exact absurd (hs.symm.trans hm) (by simp)
  · rename_i info2 hm
    split
    · exact delStream_lookup _ sid
    · exact delStream_lookup _ sid

theorem sendStreamChunk_notFound (env : Env) (st : ServerState)
    (sid delta : String) (now : Int) (sv : String)
    (h : st.streams.lookup sid = none) :
    sendStreamChunk env st sid delta now sv =
      (st, Except.error ("stream not found: " ++ sid)) := by
  unfold sendStreamChunk
  split
  · rfl
  · rename_i info hm
    exact absurd (h.symm.trans hm) (by simp)

theorem endStream_notFound (env : Env) (st : ServerState)
    (sid ft em : String) (now : Int) (sv : String)
    (h : st.streams.lookup sid = none) :
    endStream env st sid ft em now sv =
      (st, Except.error ("stream not found: " ++ sid)) := by
  unfold endStream
  split
  · rfl
  · rename_i info hm
    exact absurd (h.symm.trans hm) (by simp)

/-- C10: `EndStream` on a known stream id deletes the cached stream state
unconditionally — the deletion happens whether the final persist
succeeded or failed (the environment's `appendFails` is arbitrary here) —
so every later `stream_chunk` or `end_stream` for that id fails with the
stream-not-found error; a failed `end_stream` cannot be retried. -/
theorem c10_endstream_destroys (env : Env) (st : ServerState)
    (sid ft em : String) (now : Int) (sv : String) (info : StreamInfo)
    (hs : st.streams.lookup sid = some info) :
    (endStream env st sid ft em now sv).1.streams.lookup sid = none ∧
      (∀ (delta : String) (now2 : Int) (sv2 : String),
        (sendStreamChunk env (endStream env st sid ft em now sv).1 sid delta now2 sv2).2 =
          Except.error ("stream not found: " ++ sid)) ∧
      (∀ (ft2 em2 : String) (now2 : Int) (sv2 : String),
        (endStream env (endStream env st sid ft em now sv).1 sid ft2 em2 now2 sv2).2 =
          Except.error ("stream not found: " ++ sid)) := by
  have h1 := endStream_destroys_lookup env st sid ft em now sv info hs
  refine ⟨h1, fun delta now2 sv2 => ?_, fun ft2 em2 now2 sv2 => ?_⟩
  · rw [sendStreamChunk_notFound env _ sid delta now2 sv2 h1]
  · rw [endStream_notFound env _ sid ft2 em2 now2 sv2 h1]

/-- Witness for `c10_endstream_destroys` with a *failing* store: the
end-stream persist fails, yet the stream state is gone and a retry
reports stream-not-found. -/
theorem c10_witness :
    (endStream envFail stStream "sid1" "abcd" "" 9 "sv9").1.streams.lookup "sid1" =
        none ∧
      (endStream envFail (endStream envFail stStream "sid1" "abcd" "" 9 "sv9").1
          "sid1" "abcd" "" 10 "sv10").2 =
        Except.error ("stream not found: " ++ "sid1") :=
  ⟨(c10_endstream_destroys envFail stStream "sid1" "abcd" "" 9 "sv9" demoInfo
      (by decide)).1,
   (c10_endstream_destroys envFail stStream "sid1" "abcd" "" 9 "sv9" demoInfo
      (by decide)).2.2 "abcd" "" 10 "sv10"⟩

end GoIm
